import Mathlib

/-!
Shallow embedding of the rust-tuyapi core (frame codec, cipher layer, version
and key handling) from `src/mesparse.rs`, `src/cipher.rs`, `src/lib.rs` and
`src/error.rs`.  Bytes are modelled as `List Nat`, each entry standing for one
`u8` of the Rust slice; multi-byte integers are big-endian, as on the wire.

External crates used by the repository (openssl AES-128-ECB, serde_json, the
md5 crate) are modelled as parameters gathered in the structure `Ext`, whose
documented behaviour is captured by the hypothesis bundle `ExtOk`.  Everything
the repository itself implements (framing, header construction and stripping,
base64 from the base64 crate's STANDARD engine, CRC, version parsing, key
verification) is defined concretely below.
-/

set_option maxRecDepth 100000

deriving instance DecidableEq for Except

namespace Tuya

/-- Byte strings: each element models one `u8`. -/
abbrev Bytes := List Nat

/-- `TuyaVersion` from mesparse.rs: the closed set of protocol versions. -/
inductive TuyaVersion where
  | threeOne
  | threeThree

deriving DecidableEq, Repr

/-- `TuyaVersion::as_bytes`: the literal 3-byte ASCII form, "3.1" or "3.3". -/
def TuyaVersion.asBytes : TuyaVersion → Bytes
  | .threeOne => [0x33, 0x2E, 0x31]
  | .threeThree => [0x33, 0x2E, 0x33]

/-- `CommandType` from mesparse.rs: the full table of command codes. -/
inductive CommandType where
  | udp | apConfig | active | bind | renameGw | renameDevice | unbind
  | control | status | heartBeat | dpQuery | queryWifi | tokenBind
  | controlNew | enableWifi | dpQueryNew | sceneExecute | dpRefresh
  | udpNew | apConfigNew | lanGwActive | lanSubDevRequest | lanDeleteSubDev
  | lanReportSubDev | lanScene | lanPublishCloudConfig | lanPublishAppConfig
  | lanExportAppConfig | lanPublishScenePanel | lanRemoveGw | lanCheckGwUpdate
  | lanGwUpdate | lanSetGwChannel | error

deriving DecidableEq, Repr

/-- The numeric discriminant of each command (`ToPrimitive`, `to_u8`). -/
def CommandType.toNat : CommandType → Nat
  | .udp => 0 | .apConfig => 1 | .active => 2 | .bind => 3 | .renameGw => 4
  | .renameDevice => 5 | .unbind => 6 | .control => 7 | .status => 8
  | .heartBeat => 9 | .dpQuery => 10 | .queryWifi => 11 | .tokenBind => 12
  | .controlNew => 13 | .enableWifi => 14 | .dpQueryNew => 16
  | .sceneExecute => 17 | .dpRefresh => 18 | .udpNew => 19 | .apConfigNew => 20
  | .lanGwActive => 240 | .lanSubDevRequest => 241 | .lanDeleteSubDev => 242
  | .lanReportSubDev => 243 | .lanScene => 244 | .lanPublishCloudConfig => 245
  | .lanPublishAppConfig => 246 | .lanExportAppConfig => 247
  | .lanPublishScenePanel => 248 | .lanRemoveGw => 249
  | .lanCheckGwUpdate => 250 | .lanGwUpdate => 251 | .lanSetGwChannel => 252
  | .error => 255

/-- `FromPrimitive::from_u32` for `CommandType`: unknown codes give `none`. -/
def commandOfNat (n : Nat) : Option CommandType :=
  if n = 0 then some .udp else if n = 1 then some .apConfig
  else if n = 2 then some .active else if n = 3 then some .bind
  else if n = 4 then some .renameGw else if n = 5 then some .renameDevice
  else if n = 6 then some .unbind else if n = 7 then some .control
  else if n = 8 then some .status else if n = 9 then some .heartBeat
  else if n = 10 then some .dpQuery else if n = 11 then some .queryWifi
  else if n = 12 then some .tokenBind else if n = 13 then some .controlNew
  else if n = 14 then some .enableWifi else if n = 16 then some .dpQueryNew
  else if n = 17 then some .sceneExecute else if n = 18 then some .dpRefresh
  else if n = 19 then some .udpNew else if n = 20 then some .apConfigNew
  else if n = 240 then some .lanGwActive
  else if n = 241 then some .lanSubDevRequest
  else if n = 242 then some .lanDeleteSubDev
  else if n = 243 then some .lanReportSubDev
  else if n = 244 then some .lanScene
  else if n = 245 then some .lanPublishCloudConfig
  else if n = 246 then some .lanPublishAppConfig
  else if n = 247 then some .lanExportAppConfig
  else if n = 248 then some .lanPublishScenePanel
  else if n = 249 then some .lanRemoveGw
  else if n = 250 then some .lanCheckGwUpdate
  else if n = 251 then some .lanGwUpdate
  else if n = 252 then some .lanSetGwChannel
  else if n = 255 then some .error
  else none

/-- The error taxonomy of `error.rs` (the fields that carry foreign error
values are dropped; the nom error code of ParseError is kept). -/
inductive NomCode where
  | tagC | eofC | manyMN

deriving DecidableEq, Repr

/-- Errors of the `ErrorKind` enum in error.rs that the modelled core can
produce. -/
inductive ErrKind where
  | bufferNotCompletelyParsedError
  | commandTypeMissing
  | crcError
  | keyLength (n : Nat)
  | parseError (c : NomCode)
  | parsingIncomplete
  | versionError (maj min : List Char)

deriving DecidableEq, Repr

/-- Big-endian 4-byte encoding of a `u32` (`to_be_bytes`). -/
def toBe32 (n : Nat) : Bytes :=
  [n / 2 ^ 24 % 256, n / 2 ^ 16 % 256, n / 2 ^ 8 % 256, n % 256]

/-- Big-endian `u32` read of four bytes (`u32::from_be_bytes` / nom `be_u32`);
each entry is interpreted as the `u8` it models. -/
def fromBe32 (a b c d : Nat) : Nat :=
  a % 256 * 2 ^ 24 + b % 256 * 2 ^ 16 + c % 256 * 2 ^ 8 + d % 256

/-- Prefix magic 0x000055AA (`PREFIX_BYTES` in mesparse.rs). -/
def magicHead : Bytes := [0x00, 0x00, 0x55, 0xAA]

/-- Suffix magic 0x0000AA55 (`SUFFIX_BYTES` in mesparse.rs). -/
def magicTail : Bytes := [0x00, 0x00, 0xAA, 0x55]

/-- Modelled from the spec: the repository's `crc::crc` function is not under
src/ (crc.rs only retains its test against `crc32fast::hash`), so the IEEE
802.3 CRC-32 described in spec section 4.2 is modelled here: reflected
polynomial 0xEDB88320, initial value 0xFFFFFFFF, final xor 0xFFFFFFFF.  The
`% 256` reads the byte as the `u8` it models. -/
def crc32Step (c : Nat) : Nat :=
  if c % 2 = 1 then c / 2 ^^^ 0xEDB88320 else c / 2

def crc32Byte (c b : Nat) : Nat :=
  crc32Step (crc32Step (crc32Step (crc32Step
    (crc32Step (crc32Step (crc32Step (crc32Step (c ^^^ b % 256))))))))

def crc32 (l : Bytes) : Nat :=
  (l.foldl crc32Byte 0xFFFFFFFF) ^^^ 0xFFFFFFFF

/-- Standard base64 alphabet (base64 crate, STANDARD engine): chunk index to
ASCII code. -/
def b64char (n : Nat) : Nat :=
  if n < 26 then 65 + n
  else if n < 52 then 97 + (n - 26)
  else if n < 62 then 48 + (n - 52)
  else if n = 62 then 43 else 47

/-- Inverse alphabet lookup: ASCII code to 6-bit value, `none` when the byte
is not a base64 symbol. -/
def b64idx (c : Nat) : Option Nat :=
  if 65 ≤ c ∧ c ≤ 90 then some (c - 65)
  else if 97 ≤ c ∧ c ≤ 122 then some (c - 97 + 26)
  else if 48 ≤ c ∧ c ≤ 57 then some (c - 48 + 52)
  else if c = 43 then some 62
  else if c = 47 then some 63
  else none

/-- `general_purpose::STANDARD.encode`: standard base64 with `=` padding and
no line breaks, as used by cipher.rs for version 3.1. -/
def b64encode : Bytes → Bytes
  | [] => []
  | [a] => [b64char (a % 256 / 4), b64char (a % 256 % 4 * 16), 61, 61]
  | [a, b] => [b64char (a % 256 / 4), b64char (a % 256 % 4 * 16 + b % 256 / 16),
      b64char (b % 256 % 16 * 4), 61]
  | a :: b :: c :: rest =>
      b64char (a % 256 / 4) :: b64char (a % 256 % 4 * 16 + b % 256 / 16) ::
      b64char (b % 256 % 16 * 4 + c % 256 / 64) :: b64char (c % 256 % 64) ::
      b64encode rest

/-- `general_purpose::STANDARD.decode`: requires canonical padding, rejects
lengths that are not a multiple of 4 and non-zero trailing bits. -/
def b64decode : Bytes → Option Bytes
  | [] => some []
  | a :: b :: c :: d :: rest =>
    match b64idx a, b64idx b with
    | some x, some y =>
      if c = 61 then
        if d = 61 ∧ rest = [] ∧ y % 16 = 0 then some [x * 4 + y / 16] else none
      else
        match b64idx c with
        | some z =>
          if d = 61 then
            if rest = [] ∧ z % 4 = 0 then
              some [x * 4 + y / 16, y % 16 * 16 + z / 4]
            else none
          else
            match b64idx d with
            | some w =>
              match b64decode rest with
              | some tail =>
                  some ((x * 4 + y / 16) :: (y % 16 * 16 + z / 4) ::
                        (z % 4 * 64 + w) :: tail)
              | none => none
            | none => none
        | none => none
    | _, _ => none
  | _ => none

/-- UTF-8 validity of a byte string, as checked by `std::str::from_utf8`. -/
def utf8Cont (b : Nat) : Bool := 0x80 ≤ b ∧ b ≤ 0xBF

def isUtf8 : Bytes → Bool
  | [] => true
  | b :: rest =>
    if b < 0x80 then isUtf8 rest
    else
      match rest with
      | [] => false
      | c1 :: r1 =>
        if 0xC2 ≤ b ∧ b ≤ 0xDF then utf8Cont c1 && isUtf8 r1
        else
          match r1 with
          | [] => false
          | c2 :: r2 =>
            if b = 0xE0 then
              decide (0xA0 ≤ c1 ∧ c1 ≤ 0xBF) && utf8Cont c2 && isUtf8 r2
            else if (0xE1 ≤ b ∧ b ≤ 0xEC) ∨ b = 0xEE ∨ b = 0xEF then
              utf8Cont c1 && utf8Cont c2 && isUtf8 r2
            else if b = 0xED then
              decide (0x80 ≤ c1 ∧ c1 ≤ 0x9F) && utf8Cont c2 && isUtf8 r2
            else
              match r2 with
              | [] => false
              | c3 :: r3 =>
                if b = 0xF0 then
                  decide (0x90 ≤ c1 ∧ c1 ≤ 0xBF) && utf8Cont c2 && utf8Cont c3
                    && isUtf8 r3
                else if 0xF1 ≤ b ∧ b ≤ 0xF3 then
                  utf8Cont c1 && utf8Cont c2 && utf8Cont c3 && isUtf8 r3
                else if b = 0xF4 then
                  decide (0x80 ≤ c1 ∧ c1 ≤ 0x8F) && utf8Cont c2 && utf8Cont c3
                    && isUtf8 r3
                else false

/-- ASCII bytes of the literal "Payload invalid" used as the fallback when
the decoded payload is not valid UTF-8 (mesparse.rs, try_decrypt). -/
def payloadInvalidBytes : Bytes :=
  [80, 97, 121, 108, 111, 97, 100, 32, 105, 110, 118, 97, 108, 105, 100]

/-- The byte content that `try_decrypt` puts into a `Payload::String`:
the bytes themselves when valid UTF-8, else the literal "Payload invalid". -/
def utf8OrInvalid (b : Bytes) : Bytes :=
  if isUtf8 b then b else payloadInvalidBytes

/-- External crates consumed by the core, bundled as parameters:
`aesEnc`/`aesDec` are openssl `symm::encrypt`/`symm::decrypt` with
`Cipher::aes_128_ecb()` and the device key baked in (PKCS#7 padding),
`md5c` is `md5::compute`, and `jsonSer`/`jsonDeser` are
`serde_json::to_vec::<PayloadStruct>` / `from_slice::<PayloadStruct>` over an
abstract type `P` of structured payloads. -/
structure Ext (P : Type) where
  aesEnc : Bytes → Bytes
  aesDec : Bytes → Option Bytes
  md5c : Bytes → Bytes
  jsonSer : P → Bytes
  jsonDeser : Bytes → Option P

/-- Documented behaviour of the external crates: AES-ECB decryption inverts
encryption and fails on empty input or input that is not a whole number of
blocks; encryption of bytes yields bytes; `md5::compute` returns 16 bytes;
serde round-trips a struct, serializes it to UTF-8 bytes starting with the
left-brace byte 0x7B, and fails to parse the empty slice. -/
structure ExtOk {P : Type} (ext : Ext P) : Prop where
  dec_enc : ∀ x, ext.aesDec (ext.aesEnc x) = some x
  dec_bad_len : ∀ y, y.length % 16 ≠ 0 ∨ y.length = 0 → ext.aesDec y = none
  enc_ne : ∀ x, ext.aesEnc x ≠ []
  enc_bytes : ∀ x, (∀ b ∈ x, b < 256) → ∀ b ∈ ext.aesEnc x, b < 256
  md5_len : ∀ b, (ext.md5c b).length = 16
  ser_deser : ∀ p, ext.jsonDeser (ext.jsonSer p) = some p
  ser_head : ∀ p, (ext.jsonSer p).take 1 = [0x7B]
  ser_bytes : ∀ p, ∀ b ∈ ext.jsonSer p, b < 256
  deser_nil : ext.jsonDeser [] = none

/-- The `Payload` enum of lib.rs: a structured payload (`PayloadStruct`,
(de)serialized by serde_json, abstracted as `P`) or a free-form string
(carried as its UTF-8 bytes). -/
inductive Payload (P : Type) where
  | struct (p : P)
  | str (s : Bytes)

deriving DecidableEq, Repr

/-- The `Message` struct of mesparse.rs. -/
structure Message (P : Type) where
  payload : Payload P
  command : Option CommandType
  seq_nr : Option Nat
  ret_code : Option Nat

deriving DecidableEq, Repr

/-- `TryInto<Vec<u8>> for Payload` (lib.rs): a struct is serialized by
serde_json, a string gives its bytes.  (`serde_json::to_vec` cannot fail on
`PayloadStruct`, so the conversion is total here.) -/
def tryIntoBytes {P : Type} (ext : Ext P) : Payload P → Bytes
  | .struct p => ext.jsonSer p
  | .str s => s

/-- `maybe_strip_header` (cipher.rs): when the data starts with the version's
3-byte ASCII tag and is longer than 3 bytes, drop 19 bytes for 3.1 and 15
bytes for 3.3. -/
def maybeStripHeader (v : TuyaVersion) (data : Bytes) : Bytes :=
  if 3 < data.length ∧ data.take 3 = v.asBytes then
    data.drop (match v with | .threeOne => 19 | .threeThree => 15)
  else data

/-- `TuyaCipher::encrypt`: AES-128-ECB, then base64 for 3.1, raw for 3.3. -/
def cipherEncrypt {P : Type} (ext : Ext P) (v : TuyaVersion) (data : Bytes) :
    Bytes :=
  match v with
  | .threeOne => b64encode (ext.aesEnc data)
  | .threeThree => ext.aesEnc data

/-- `TuyaCipher::decrypt`: strip the version header if present, base64-decode
for 3.1, then AES-128-ECB decrypt. -/
def cipherDecrypt {P : Type} (ext : Ext P) (v : TuyaVersion) (data : Bytes) :
    Option Bytes :=
  let d := maybeStripHeader v data
  match v with
  | .threeOne =>
    match b64decode d with
    | some d2 => ext.aesDec d2
    | none => none
  | .threeThree => ext.aesDec d

/-- The `hash_line` built by `TuyaCipher::md5` (cipher.rs):
"data=" then payload then "||lpv=" then version tag then "||" then key. -/
def hashLine (key : Bytes) (v : TuyaVersion) (payload : Bytes) : Bytes :=
  [100, 97, 116, 97, 61] ++ payload ++ [124, 124, 108, 112, 118, 61]
    ++ v.asBytes ++ [124, 124] ++ key

/-- `TuyaCipher::md5`: bytes 4..16 of the MD5 digest of the hash line. -/
def cipherMd5 {P : Type} (ext : Ext P) (key : Bytes) (v : TuyaVersion)
    (payload : Bytes) : Bytes :=
  ((ext.md5c (hashLine key v payload)).drop 4).take 12

/-- `MessageParser::create_payload_with_header`: version tag, then 12 zero
bytes for 3.1 or the truncated MD5 digest for 3.3, then the ciphertext. -/
def createPayloadWithHeader {P : Type} (ext : Ext P) (key : Bytes)
    (v : TuyaVersion) (payload : Bytes) : Bytes :=
  v.asBytes
    ++ (match v with
        | .threeOne => List.replicate 12 0
        | .threeThree => cipherMd5 ext key v payload)
    ++ cipherEncrypt ext v payload

/-- `MessageParser::create_payload_header`: version- and command-dependent
construction of the payload region. -/
def createPayloadHeader {P : Type} (ext : Ext P) (key : Bytes)
    (v : TuyaVersion) (m : Message P) (encrypt : Bool) : Bytes :=
  match v with
  | .threeOne =>
    if encrypt then createPayloadWithHeader ext key v (tryIntoBytes ext m.payload)
    else tryIntoBytes ext m.payload
  | .threeThree =>
    if m.command = some .dpQuery ∨ m.command = some .dpRefresh then
      cipherEncrypt ext v (tryIntoBytes ext m.payload)
    else createPayloadWithHeader ext key v (tryIntoBytes ext m.payload)

/-- `MessageParser::encode`: prefix magic, sequence number (0 when absent),
command word, remaining length (payload length plus 8 plus 4 when a return
code is present, as u32 arithmetic), the return code bytes (`u8::to_be_bytes`,
a single byte), the payload region, CRC-32 over everything so far, suffix
magic.  Fails with CommandTypeMissing when the message has no command. -/
def encode {P : Type} (ext : Ext P) (key : Bytes) (v : TuyaVersion)
    (m : Message P) (encrypt : Bool) : Except ErrKind Bytes :=
  match m.command with
  | none => .error .commandTypeMissing
  | some c =>
    let payload := createPayloadHeader ext key v m encrypt
    let retLen : Nat := match m.ret_code with | some _ => 4 | none => 0
    let body := magicHead ++ toBe32 (m.seq_nr.getD 0) ++ [0, 0, 0, c.toNat]
      ++ toBe32 ((payload.length % 2 ^ 32 + 8 + retLen) % 2 ^ 32)
      ++ (match m.ret_code with | some rc => [rc % 256] | none => [])
      ++ payload
    .ok (body ++ toBe32 (crc32 body) ++ magicTail)

/-- Outcomes of the nom combinators: recoverable error, unrecoverable
failure, or incomplete input, each as in `nom::Err`. -/
inductive NomErr where
  | err (c : NomCode)
  | fail (c : NomCode)
  | incomplete

deriving DecidableEq, Repr

/-- Error-propagating sequencing of nom parsers (the `?` operator on
`IResult`). -/
def exBind {α β : Type} (x : Except NomErr α) (f : α → Except NomErr β) :
    Except NomErr β :=
  match x with
  | .error e => .error e
  | .ok a => f a

def tagP (t : Bytes) (buf : Bytes) : Except NomErr Bytes :=
  if buf.take t.length = t then .ok (buf.drop t.length)
  else .error (.err .tagC)

def beU32P (buf : Bytes) : Except NomErr (Nat × Bytes) :=
  match buf with
  | a :: b :: c :: d :: r => .ok (fromBe32 a b c d, r)
  | _ => .error (.err .eofC)

/-- `length_data(be_u32_minus4)`: read the length word, subtract 4 with u32
wrap-around, and take that many bytes, reporting Incomplete when fewer
remain. -/
def lengthDataP (buf : Bytes) : Except NomErr (Bytes × Bytes) :=
  exBind (beU32P buf) fun nr =>
    if nr.2.length < (nr.1 + 2 ^ 32 - 4) % 2 ^ 32 then .error .incomplete
    else .ok (nr.2.take ((nr.1 + 2 ^ 32 - 4) % 2 ^ 32),
              nr.2.drop ((nr.1 + 2 ^ 32 - 4) % 2 ^ 32))

/-- One iteration of the frame tuple parser in `parse_messages`:
`tag(PREFIX)`, `be_u32` (sequence), `be_u32` (command),
`length_data(be_u32_minus4)`, `tag(SUFFIX)`.  Returns the rest of the buffer
and the frame's sequence number, command word and inner data.
`be_u32_minus4` is the wrapping u32 subtraction `n - 4`, and the complete
`tag`/`be_u32` report recoverable Tag/Eof errors on mismatch or short
input. -/
def parseFrame (buf : Bytes) : Except NomErr (Bytes × Nat × Nat × Bytes) :=
  exBind (tagP magicHead buf) fun r1 =>
  exBind (beU32P r1) fun sr =>
  exBind (beU32P sr.2) fun cr =>
  exBind (lengthDataP cr.2) fun dr =>
  exBind (tagP magicTail dr.2) fun rest =>
  .ok (rest, sr.1, cr.1, dr.1)

/-- The looping part of `many1`: keep matching frames; a recoverable error
stops the loop, Incomplete and Failure abort it.  Each successful match
consumes at least 20 bytes, so fuel equal to the buffer length never runs
out. -/
def many1Go : Nat → Bytes → List (Nat × Nat × Bytes) →
    Except NomErr (Bytes × List (Nat × Nat × Bytes))
  | 0, buf, acc => .ok (buf, acc.reverse)
  | fuel + 1, buf, acc =>
    match parseFrame buf with
    | .error (.err _) => .ok (buf, acc.reverse)
    | .error e => .error e
    | .ok (rest, s, c, d) => many1Go fuel rest ((s, c, d) :: acc)

/-- `many1` over the frame tuple parser: the first failure is fatal and keeps
its inner error (the default nom error type discards the Many1 wrapper). -/
def many1Frames (buf : Bytes) :
    Except NomErr (Bytes × List (Nat × Nat × Bytes)) :=
  match parseFrame buf with
  | .error e => .error e
  | .ok (rest, s, c, d) => many1Go rest.length rest [(s, c, d)]

/-- `MessageParser::try_decrypt`: attempt cipher decryption, fall back to the
raw bytes; then attempt `serde_json::from_slice::<PayloadStruct>`, falling
back to a string payload (with the "Payload invalid" literal when the bytes
are not UTF-8). -/
def tryDecrypt {P : Type} (ext : Ext P) (v : TuyaVersion) (payload : Bytes) :
    Payload P :=
  match cipherDecrypt ext v payload with
  | some decrypted =>
    match ext.jsonDeser decrypted with
    | some p => .struct p
    | none => .str (utf8OrInvalid decrypted)
  | none =>
    match ext.jsonDeser payload with
    | some p => .struct p
    | none => .str (utf8OrInvalid payload)

/-- Results of running `parse_messages` including the possibility of a Rust
panic (an out-of-range `split_at` after an underflowing subtraction). -/
inductive PRes (α : Type) where
  | ok (a : α)
  | nomE (e : NomErr)
  | panik

deriving DecidableEq, Repr

/-- The return-code test of `parse_messages`: the peeked u32 has its high 24
bits zero, i.e. the first three bytes are zero. -/
def hasRetCode (r : Bytes) : Prop :=
  r.getD 0 0 % 256 = 0 ∧ r.getD 1 0 % 256 = 0 ∧ r.getD 2 0 % 256 = 0

instance (r : Bytes) : Decidable (hasRetCode r) := by
  unfold hasRetCode; infer_instance

/-- The tail of one iteration of the `parse_messages` loop, after the
return-code word has been consumed: `split_at(len - 4)` the remaining inner
bytes into payload and CRC trailer (a panic when fewer than 4 bytes remain,
since the subtraction underflows), recompute the CRC over the prefix of the
original buffer of length `16 + ret_len + payload length`, and build the
message on success. -/
def processOne {P : Type} (ext : Ext P) (v : TuyaVersion) (orig : Bytes)
    (seq cmd : Nat) (recv : Bytes) (retCode : Option Nat) (retLen : Nat) :
    PRes (Message P) :=
  if recv.length < 4 then .panik
  else if crc32 (orig.take (recv.length + 12 + retLen))
      ≠ fromBe32 ((recv.drop (recv.length - 4)).getD 0 0)
        ((recv.drop (recv.length - 4)).getD 1 0)
        ((recv.drop (recv.length - 4)).getD 2 0)
        ((recv.drop (recv.length - 4)).getD 3 0) then
    .nomE (.fail .manyMN)
  else
    .ok ⟨tryDecrypt ext v (recv.take (recv.length - 4)), commandOfNat cmd,
         some seq, retCode⟩

/-- The per-frame loop of `parse_messages`: peek a `be_u32` (fewer than 4
bytes of inner data is a recoverable Eof error); when its high 24 bits are
zero consume it as the return-code word and record the low byte; then run
the split/CRC/decrypt tail on each frame, stopping at the first error, with
unknown command words becoming `none`. -/
def processFrames {P : Type} (ext : Ext P) (v : TuyaVersion) (orig : Bytes) :
    List (Nat × Nat × Bytes) → PRes (List (Message P))
  | [] => .ok []
  | (seq, cmd, recvData) :: rest =>
    if recvData.length < 4 then .nomE (.err .eofC)
    else
      match processOne ext v orig seq cmd
          (if hasRetCode recvData then recvData.drop 4 else recvData)
          (if hasRetCode recvData then some (recvData.getD 3 0 % 256) else none)
          (if hasRetCode recvData then 4 else 0) with
      | .ok msg =>
        match processFrames ext v orig rest with
        | .ok msgs => .ok (msg :: msgs)
        | other => other
      | .nomE e => .nomE e
      | .panik => .panik

/-- `MessageParser::parse_messages`: `many1` over frames, then the per-frame
processing loop, keeping the unparsed remainder of the buffer. -/
def parseMessages {P : Type} (ext : Ext P) (v : TuyaVersion) (buf : Bytes) :
    PRes (Bytes × List (Message P)) :=
  match many1Frames buf with
  | .error e => .nomE e
  | .ok (rest, frames) =>
    match processFrames ext v buf frames with
    | .ok msgs => .ok (rest, msgs)
    | .nomE e => .nomE e
    | .panik => .panik

/-- Observable outcome of `MessageParser::parse`: the decoded messages, an
`ErrorKind`, or a Rust panic. -/
inductive ParseOut (P : Type) where
  | ok (msgs : List (Message P))
  | err (e : ErrKind)
  | panik

deriving DecidableEq, Repr

/-- `MessageParser::parse`: map the nom error onto the error taxonomy
(recoverable error to ParseError, Incomplete to ParsingIncomplete, Failure
with code ManyMN to CRCError), and fail with
BufferNotCompletelyParsedError when the buffer was not fully consumed. -/
def parse {P : Type} (ext : Ext P) (v : TuyaVersion) (buf : Bytes) :
    ParseOut P :=
  match parseMessages ext v buf with
  | .nomE (.err c) => .err (.parseError c)
  | .nomE .incomplete => .err .parsingIncomplete
  | .nomE (.fail c) =>
      if c = .manyMN then .err .crcError else .err (.parseError c)
  | .panik => .panik
  | .ok (rest, msgs) =>
      if rest = [] then .ok msgs else .err .bufferNotCompletelyParsedError

/-- ASCII bytes of the constant `UDP_KEY` string "yGAdlopoPVldABfn". -/
def udpKeyBytes : Bytes :=
  [121, 71, 65, 100, 108, 111, 112, 111, 80, 86, 108, 100, 65, 66, 102, 110]

/-- `verify_key` (mesparse.rs): a supplied key must be exactly 16 bytes,
otherwise the error carries the actual length; without a key the MD5 digest
of the UDP key constant is used.  The key is taken as the UTF-8 bytes of the
Rust `&str` (whose `len()` is its byte length). -/
def verifyKey {P : Type} (ext : Ext P) : Option Bytes → Except ErrKind Bytes
  | some key =>
      if key.length = 16 then .ok key else .error (.keyLength key.length)
  | none => .ok (ext.md5c udpKeyBytes)

/-- Rust `str::split('.')`: strings are modelled as their character lists;
splitting the empty string yields one empty token, as in Rust. -/
def splitDot : List Char → List (List Char)
  | [] => [[]]
  | c :: rest =>
    if c = '.' then [] :: splitDot rest
    else
      match splitDot rest with
      | t :: ts => (c :: t) :: ts
      | [] => [[c]]

/-- The characters of the literal "Unknown". -/
def unknownStr : List Char := ['U', 'n', 'k', 'n', 'o', 'w', 'n']

/-- `TuyaVersion::from_str`: split on the dot, require at least two tokens
with the first ending in '3' (`ends_with('3')` is: the last character is
'3'); minor "1" gives 3.1, minor "3" gives 3.3, any other minor carries the
two tokens in the error, and any other shape fails with the literal
"Unknown" pair. -/
def tuyaVersionFromStr (s : List Char) : Except ErrKind TuyaVersion :=
  if 1 < (splitDot s).length then
    if ((splitDot s).getD 0 []).getLast? = some '3' then
      if (splitDot s).getD 1 [] = ['1'] then .ok .threeOne
      else if (splitDot s).getD 1 [] = ['3'] then .ok .threeThree
      else .error (.versionError ((splitDot s).getD 0 [])
        ((splitDot s).getD 1 []))
    else .error (.versionError unknownStr unknownStr)
  else .error (.versionError unknownStr unknownStr)

/-- `MessageParser::create` (and through it `TuyaDevice::create`): parse the
version string, verify the key, and build the parser state (the version and
the cipher key).  The remaining device fields are the network address and
port, which need no verification. -/
def parserCreate {P : Type} (ext : Ext P) (ver : List Char) (key : Option Bytes) :
    Except ErrKind (TuyaVersion × Bytes) :=
  match tuyaVersionFromStr ver with
  | .error e => .error e
  | .ok v =>
    match verifyKey ext key with
    | .error e => .error e
    | .ok k => .ok (v, k)

/-- PKCS#7 padding to 16-byte blocks, used by the concrete witness instance
of the external-cipher contract. -/
def pkcs7Pad (x : Bytes) : Bytes :=
  x ++ List.replicate (16 - x.length % 16) (16 - x.length % 16)

/-- PKCS#7 unpadding: requires a non-empty whole number of blocks and a
valid padding suffix (whose length is read off the last byte). -/
def pkcs7Unpad (y : Bytes) : Option Bytes :=
  if y.length % 16 = 0 ∧ 1 ≤ y.getLast?.getD 0 ∧ y.getLast?.getD 0 ≤ 16 ∧
      y.getLast?.getD 0 ≤ y.length ∧
      (y.drop (y.length - y.getLast?.getD 0)).all
        (fun b => b = y.getLast?.getD 0) then
    some (y.take (y.length - y.getLast?.getD 0))
  else none

/-- A concrete instance of the external-crate contract, used to instantiate
the parametric theorems at closed inputs: the block cipher is PKCS#7 padding
itself (a legal instance of the interface the repository relies on), the MD5
digest is 16 zero bytes, and structured payloads are the unit type
serialized as the two bytes of the empty JSON object. -/
def mockExt : Ext Unit where
  aesEnc := pkcs7Pad
  aesDec := pkcs7Unpad
  md5c := fun _ => List.replicate 16 0
  jsonSer := fun _ => [0x7B, 0x7D]
  jsonDeser := fun b => if b = [0x7B, 0x7D] then some () else none

/-! Concrete inputs used by the claim theorems below. -/

/-- The 28-byte heartbeat reply frame of spec section 8, scenario 1. -/
def heartbeatBytes : Bytes :=
  [0x00, 0x00, 0x55, 0xAA, 0, 0, 0, 0, 0, 0, 0, 9, 0, 0, 0, 0x0C,
   0, 0, 0, 0, 0xB0, 0x51, 0xAB, 0x03, 0x00, 0x00, 0xAA, 0x55]

/-- A test message over the witness instance: the unit structured payload,
command Control, sequence number 1, no return code. -/
def mesOne : Message Unit := ⟨.struct (), some .control, some 1, none⟩

/-- The same message with sequence number 2. -/
def mesTwo : Message Unit := ⟨.struct (), some .control, some 2, none⟩

/-- `encode mockExt [] .threeOne mesOne false`, the 3.1 plaintext frame for
`mesOne`. -/
def frameOne : Bytes :=
  [0, 0, 85, 170, 0, 0, 0, 1, 0, 0, 0, 7, 0, 0, 0, 10, 123, 125,
   159, 151, 160, 40, 0, 0, 170, 85]

/-- `encode mockExt [] .threeOne mesTwo false`, the 3.1 plaintext frame for
`mesTwo`. -/
def frameTwo : Bytes :=
  [0, 0, 85, 170, 0, 0, 0, 2, 0, 0, 0, 7, 0, 0, 0, 10, 123, 125,
   6, 117, 198, 41, 0, 0, 170, 85]

/-- `encode mockExt [] .threeOne mesOne true`: the frame produced under 3.1
with the encrypt flag set (15-byte header, then base64 ciphertext). -/
def frameOneEncrypted : Bytes :=
  [0, 0, 85, 170, 0, 0, 0, 1, 0, 0, 0, 7, 0, 0, 0, 47,
   51, 46, 49, 0, 0, 0, 0, 0, 0, 0, 0, 0, 0, 0, 0,
   101, 51, 48, 79, 68, 103, 52, 79, 68, 103, 52, 79, 68, 103, 52, 79,
   68, 103, 52, 79, 68, 103, 61, 61, 185, 208, 97, 210, 0, 0, 170, 85]

/-! ## Theorems -/

theorem commandOfNat_toNat (c : CommandType) : commandOfNat c.toNat = some c := by
  cases c <;> rfl

theorem fromBe32_toBe32 (n : Nat) (h : n < 2 ^ 32) :
    fromBe32 (n / 2 ^ 24 % 256) (n / 2 ^ 16 % 256) (n / 2 ^ 8 % 256) (n % 256) = n := by
  unfold fromBe32; omega

theorem toBe32_length (n : Nat) : (toBe32 n).length = 4 := rfl

theorem crc32_heartbeat_check :
    crc32 [0x00, 0x00, 0x55, 0xAA, 0, 0, 0, 0, 0, 0, 0, 9, 0, 0, 0, 0x0C,
           0, 0, 0, 0] = 0xB051AB03 := by decide

theorem exBind_ok {α β : Type} (a : α) (f : α → Except NomErr β) :
    exBind (.ok a) f = f a := rfl

theorem exBind_error {α β : Type} (e : NomErr) (f : α → Except NomErr β) :
    exBind (.error e) f = .error e := rfl

theorem pkcs7Unpad_pad (x : Bytes) : pkcs7Unpad (pkcs7Pad x) = some x := by
  have hk1 : 1 ≤ 16 - x.length % 16 := by omega
  have hsplit : pkcs7Pad x
      = (x ++ List.replicate (16 - x.length % 16 - 1) (16 - x.length % 16))
        ++ [16 - x.length % 16] := by
    unfold pkcs7Pad
    rw [List.append_assoc]
    congr 1
    obtain ⟨j, hj⟩ : ∃ j, 16 - x.length % 16 = j + 1 :=
      ⟨16 - x.length % 16 - 1, by omega⟩
    rw [hj]
    simp only [Nat.add_sub_cancel]
    rw [← List.replicate_succ']
  have hlast : (pkcs7Pad x).getLast?.getD 0 = 16 - x.length % 16 := by
    rw [hsplit, List.getLast?_concat]; rfl
  have hlen : (pkcs7Pad x).length = x.length + (16 - x.length % 16) := by
    unfold pkcs7Pad
    simp [List.length_append, List.length_replicate]
  have hdrop : (pkcs7Pad x).drop x.length
      = List.replicate (16 - x.length % 16) (16 - x.length % 16) := by
    unfold pkcs7Pad
    exact List.drop_left x _
  have htake : (pkcs7Pad x).take x.length = x := by
    unfold pkcs7Pad
    exact List.take_left x _
  unfold pkcs7Unpad
  rw [hlast, hlen, if_pos]
  · have : x.length + (16 - x.length % 16) - (16 - x.length % 16) = x.length := by
      omega
    rw [this, htake]
  · refine ⟨by omega, hk1, by omega, by omega, ?_⟩
    have : x.length + (16 - x.length % 16) - (16 - x.length % 16) = x.length := by
      omega
    rw [this, hdrop]
    simp [List.all_eq_true, List.mem_replicate]

theorem pkcs7Unpad_bad (y : Bytes) (h : y.length % 16 ≠ 0 ∨ y.length = 0) :
    pkcs7Unpad y = none := by
  unfold pkcs7Unpad
  rw [if_neg]
  rintro ⟨h1, h2, -⟩
  rcases h with h | h
  · exact h h1
  · have hy : y = [] := List.length_eq_zero.mp h
    rw [hy] at h2
    simp at h2

theorem mockExtOk : ExtOk mockExt := by
  constructor
  · exact pkcs7Unpad_pad
  · exact pkcs7Unpad_bad
  · intro x
    show pkcs7Pad x ≠ []
    unfold pkcs7Pad
    intro h
    have := congrArg List.length h
    simp [List.length_append, List.length_replicate] at this
    omega
  · intro x hx b hb
    rcases List.mem_append.mp hb with h | h
    · exact hx b h
    · have := List.eq_of_mem_replicate h
      omega
  · intro b; simp [mockExt, List.length_replicate]
  · intro p; simp [mockExt]
  · intro p; rfl
  · intro p b hb; simp [mockExt] at hb; omega
  · decide

/-- Alphabet round-trip for the base64 tables. -/
theorem b64idx_b64char : ∀ n, n < 64 → b64idx (b64char n) = some n := by decide

theorem b64char_ne_61 : ∀ n, n < 64 → b64char n ≠ 61 := by decide

theorem b64char_ne_46 (n : Nat) : b64char n ≠ 46 := by
  unfold b64char
  split <;> [omega; skip]
  split <;> [omega; skip]
  split <;> [omega; skip]
  split <;> omega

/-- Decoding inverts encoding on byte strings (the STANDARD engine's
canonical padding is exactly what the encoder produces). -/
theorem b64decode_encode_aux (n : Nat) :
    ∀ l : Bytes, l.length ≤ n → (∀ b ∈ l, b < 256) →
      b64decode (b64encode l) = some l := by
  induction n with
  | zero =>
    intro l hl _
    have : l = [] := List.length_eq_zero.mp (by omega)
    subst this
    rfl
  | succ n ih =>
    intro l hl hb
    match l with
    | [] => rfl
    | [a] =>
      have ha : a < 256 := hb a (by simp)
      have ha' : a % 256 = a := Nat.mod_eq_of_lt ha
      simp only [b64encode, ha']
      simp only [b64decode]
      rw [b64idx_b64char _ (by omega), b64idx_b64char _ (by omega)]
      simp only [if_true, true_and, and_true]
      rw [if_pos (by omega)]
      simp only [Option.some.injEq, List.cons.injEq, and_true]
      omega
    | [a, b] =>
      have ha : a < 256 := hb a (by simp)
      have hbb : b < 256 := hb b (by simp)
      have ha' : a % 256 = a := Nat.mod_eq_of_lt ha
      have hb' : b % 256 = b := Nat.mod_eq_of_lt hbb
      simp only [b64encode, ha', hb']
      simp only [b64decode]
      rw [b64idx_b64char _ (by omega), b64idx_b64char _ (by omega)]
      simp only
      rw [if_neg (b64char_ne_61 _ (by omega)),
        b64idx_b64char _ (by omega)]
      simp only [if_true, true_and, and_true]
      rw [if_pos (by omega)]
      simp only [Option.some.injEq, List.cons.injEq, and_true]
      omega
    | a :: b :: c :: rest =>
      have ha : a < 256 := hb a (by simp)
      have hbb : b < 256 := hb b (by simp)
      have hc : c < 256 := hb c (by simp)
      have ha' : a % 256 = a := Nat.mod_eq_of_lt ha
      have hb' : b % 256 = b := Nat.mod_eq_of_lt hbb
      have hc' : c % 256 = c := Nat.mod_eq_of_lt hc
      have hrest : b64decode (b64encode rest) = some rest := by
        refine ih rest ?_ ?_
        · rw [List.length_cons, List.length_cons, List.length_cons] at hl
          omega
        · intro x hx; exact hb x (by simp [hx])
      simp only [b64encode, ha', hb', hc']
      simp only [b64decode]
      rw [b64idx_b64char _ (by omega), b64idx_b64char _ (by omega)]
      simp only
      rw [if_neg (b64char_ne_61 _ (by omega)), b64idx_b64char _ (by omega)]
      simp only
      rw [if_neg (b64char_ne_61 _ (by omega)), b64idx_b64char _ (by omega)]
      simp only [hrest]
      simp only [Option.some.injEq, List.cons.injEq, and_true, true_and]
      refine ⟨by omega, by omega, by omega⟩

theorem b64decode_encode (l : Bytes) (hb : ∀ b ∈ l, b < 256) :
    b64decode (b64encode l) = some l :=
  b64decode_encode_aux l.length l (Nat.le_refl _) hb

/-- Decoding fails outright when the first byte is not a base64 symbol. -/
theorem b64decode_invalid_head (x : Nat) (hx : b64idx x = none) :
    ∀ t : Bytes, b64decode (x :: t) = none := by
  intro t
  match t with
  | [] => rfl
  | [_] => rfl
  | [_, _] => rfl
  | _ :: _ :: _ :: _ => simp [b64decode, hx]

/-- Base64 output of a nonempty input has a base64 symbol in second
position. -/
theorem b64encode_second (x : Nat) (xs : Bytes) :
    ∃ y k r2, b64encode (x :: xs) = y :: b64char k :: r2 := by
  match xs with
  | [] => exact ⟨_, _, _, rfl⟩
  | [b] => exact ⟨_, _, _, rfl⟩
  | b :: c :: r => exact ⟨_, _, _, rfl⟩

/-- A base64-encoded payload is never mistaken for a 3.1 version header:
the second byte of the "3.1" tag is '.', which is not a base64 symbol. -/
theorem maybeStrip_31_b64enc (l : Bytes) :
    maybeStripHeader .threeOne (b64encode l) = b64encode l := by
  match l with
  | [] => rfl
  | x :: xs =>
    obtain ⟨y, k, r2, he⟩ := b64encode_second x xs
    rw [he]
    unfold maybeStripHeader
    rw [if_neg]
    rintro ⟨-, h3⟩
    simp [List.take, TuyaVersion.asBytes] at h3
    exact b64char_ne_46 k h3.2.1

theorem xor_lt_32 {a b : Nat} (ha : a < 2 ^ 32) (hb : b < 2 ^ 32) :
    a ^^^ b < 2 ^ 32 :=
  Nat.bitwise_lt_two_pow ha hb

theorem crc32Step_lt {c : Nat} (h : c < 2 ^ 32) : crc32Step c < 2 ^ 32 := by
  unfold crc32Step
  split
  · exact xor_lt_32 (by omega) (by norm_num)
  · omega

theorem crc32Byte_lt {c : Nat} (b : Nat) (h : c < 2 ^ 32) :
    crc32Byte c b < 2 ^ 32 := by
  unfold crc32Byte
  exact crc32Step_lt (crc32Step_lt (crc32Step_lt (crc32Step_lt (crc32Step_lt
    (crc32Step_lt (crc32Step_lt (crc32Step_lt
      (xor_lt_32 h (by have := Nat.mod_lt b (y := 256) (by omega); omega)))))))))

theorem crc32_lt (l : Bytes) : crc32 l < 2 ^ 32 := by
  unfold crc32
  refine xor_lt_32 ?_ (by norm_num)
  have : ∀ c, c < 2 ^ 32 → l.foldl crc32Byte c < 2 ^ 32 := by
    induction l with
    | nil => intro c hc; simpa using hc
    | cons b t ih =>
      intro c hc
      simpa using ih (crc32Byte c b) (crc32Byte_lt b hc)
  exact this _ (by norm_num)

/-- The serde serialization of a struct starts with the left-brace byte. -/
theorem jsonSer_cons {P : Type} {ext : Ext P} (hext : ExtOk ext) (p : P) :
    ∃ t, ext.jsonSer p = 0x7B :: t := by
  have h := hext.ser_head p
  match hj : ext.jsonSer p with
  | [] => rw [hj] at h; simp [List.take] at h
  | x :: t =>
    rw [hj] at h
    simp [List.take] at h
    exact ⟨t, by rw [h]⟩

/-- Decryption of a serde-serialized struct under 3.1: no header is
stripped (the first byte is a left brace, not '3'), base64 decoding fails on
that byte, so the cipher reports an error and `try_decrypt` falls back to
parsing the raw bytes. -/
theorem tryDecrypt_31_plain {P : Type} {ext : Ext P} (hext : ExtOk ext)
    (p : P) : tryDecrypt ext .threeOne (ext.jsonSer p) = .struct p := by
  obtain ⟨t, ht⟩ := jsonSer_cons hext p
  have hstrip : maybeStripHeader .threeOne (0x7B :: t) = 0x7B :: t := by
    unfold maybeStripHeader
    rw [if_neg]
    rintro ⟨-, habs⟩
    simp [List.take, TuyaVersion.asBytes] at habs
  have hdec : cipherDecrypt ext .threeOne (ext.jsonSer p) = none := by
    simp [cipherDecrypt, ht, hstrip, b64decode_invalid_head 0x7B (by decide)]
  simp [tryDecrypt, hdec, hext.ser_deser]

/-- Decryption of a 3.3 payload region that carries the version/MD5 header:
the 15-byte header is stripped and AES decryption recovers the plaintext. -/
theorem tryDecrypt_33_header {P : Type} {ext : Ext P} (hext : ExtOk ext)
    (key : Bytes) (p : P) :
    tryDecrypt ext .threeThree
      (createPayloadWithHeader ext key .threeThree (ext.jsonSer p))
      = .struct p := by
  have hmdlen : (cipherMd5 ext key .threeThree (ext.jsonSer p)).length = 12 := by
    unfold cipherMd5
    simp [List.length_take, List.length_drop, hext.md5_len]
  have hreg : createPayloadWithHeader ext key .threeThree (ext.jsonSer p)
      = ([0x33, 0x2E, 0x33] ++ cipherMd5 ext key .threeThree (ext.jsonSer p))
        ++ ext.aesEnc (ext.jsonSer p) := by
    unfold createPayloadWithHeader cipherEncrypt TuyaVersion.asBytes
    simp [List.append_assoc]
  have hlen15 : (([0x33, 0x2E, 0x33]
      ++ cipherMd5 ext key .threeThree (ext.jsonSer p))).length = 15 := by
    simp [List.length_append, hmdlen]
  have hstrip : maybeStripHeader .threeThree
      (createPayloadWithHeader ext key .threeThree (ext.jsonSer p))
      = ext.aesEnc (ext.jsonSer p) := by
    have hc2 : (([0x33, 0x2E, 0x33]
        ++ cipherMd5 ext key .threeThree (ext.jsonSer p))
        ++ ext.aesEnc (ext.jsonSer p)).take 3 = [0x33, 0x2E, 0x33] := by
      rw [List.append_assoc, List.take_append_of_le_length (by simp)]
      rfl
    have hc1 : 3 < (([0x33, 0x2E, 0x33]
        ++ cipherMd5 ext key .threeThree (ext.jsonSer p))
        ++ ext.aesEnc (ext.jsonSer p)).length := by
      have hne := hext.enc_ne (ext.jsonSer p)
      have hpos : 0 < (ext.aesEnc (ext.jsonSer p)).length :=
        List.length_pos.mpr hne
      have hlen' : ((([0x33, 0x2E, 0x33]
          ++ cipherMd5 ext key .threeThree (ext.jsonSer p))
          ++ ext.aesEnc (ext.jsonSer p))).length
          = 15 + (ext.aesEnc (ext.jsonSer p)).length := by
        rw [List.length_append, hlen15]
      omega
    rw [hreg]
    unfold maybeStripHeader
    rw [if_pos ⟨hc1, hc2⟩]
    exact List.drop_left' hlen15
  simp [tryDecrypt, cipherDecrypt, hstrip, hext.dec_enc, hext.ser_deser]

/-- Decryption of a raw 3.3 ciphertext payload region (the DpQuery and
DpRefresh commands): provided the ciphertext does not happen to start with
the "3.3" tag, nothing is stripped and AES decryption recovers the
plaintext. -/
theorem tryDecrypt_33_raw {P : Type} {ext : Ext P} (hext : ExtOk ext)
    (p : P)
    (hcol : (ext.aesEnc (ext.jsonSer p)).take 3 ≠ [0x33, 0x2E, 0x33]) :
    tryDecrypt ext .threeThree (ext.aesEnc (ext.jsonSer p)) = .struct p := by
  have hstrip : maybeStripHeader .threeThree (ext.aesEnc (ext.jsonSer p))
      = ext.aesEnc (ext.jsonSer p) := by
    unfold maybeStripHeader
    rw [if_neg]
    rintro ⟨-, habs⟩
    exact hcol habs
  simp [tryDecrypt, cipherDecrypt, hstrip, hext.dec_enc, hext.ser_deser]

/-- The tag combinator consumes an exact prefix. -/
theorem tagP_exact (t r : Bytes) : tagP t (t ++ r) = .ok r := by
  unfold tagP
  rw [if_pos (List.take_left t r), List.drop_left]

/-- Reading back a big-endian u32 written by `toBe32`. -/
theorem beU32P_be (v : Nat) (hv : v < 2 ^ 32) :
    ∀ r : Bytes, beU32P (toBe32 v ++ r) = .ok (v, r) := by
  intro r
  simp only [toBe32, List.cons_append, List.nil_append, beU32P]
  rw [fromBe32_toBe32 v hv]

/-- Reading back the command word written by encode. -/
theorem beU32P_cmd (k : Nat) (hk : k < 256) :
    ∀ r : Bytes, beU32P ([0, 0, 0, k] ++ r) = .ok (k, r) := by
  intro r
  simp only [List.cons_append, List.nil_append, beU32P]
  have : fromBe32 0 0 0 k = k := by unfold fromBe32; omega
  rw [this]

/-- `length_data` consumes exactly the announced number of bytes. -/
theorem lengthDataP_exact (data rest : Bytes)
    (hd : data.length + 4 < 2 ^ 32) :
    lengthDataP (toBe32 (data.length + 4) ++ (data ++ rest))
      = .ok (data, rest) := by
  unfold lengthDataP
  rw [beU32P_be _ hd, exBind_ok]
  show (if (data ++ rest).length < (data.length + 4 + 2 ^ 32 - 4) % 2 ^ 32
      then (.error .incomplete : Except NomErr (Bytes × Bytes))
      else .ok ((data ++ rest).take ((data.length + 4 + 2 ^ 32 - 4) % 2 ^ 32),
                (data ++ rest).drop ((data.length + 4 + 2 ^ 32 - 4) % 2 ^ 32)))
      = .ok (data, rest)
  rw [show (data.length + 4 + 2 ^ 32 - 4) % 2 ^ 32 = data.length from by omega]
  rw [if_neg (by rw [List.length_append]; omega), List.take_left,
    List.drop_left]

/-- Parsing one well-formed frame followed by arbitrary residue. -/
theorem parseFrame_frame (n k : Nat) (data rest : Bytes)
    (hn : n < 2 ^ 32) (hk : k < 256) (hd : data.length + 4 < 2 ^ 32) :
    parseFrame (magicHead ++ (toBe32 n ++ ([0, 0, 0, k]
        ++ (toBe32 (data.length + 4) ++ (data ++ (magicTail ++ rest))))))
      = .ok (rest, n, k, data) := by
  have h1 := tagP_exact magicHead (toBe32 n ++ ([0, 0, 0, k]
    ++ (toBe32 (data.length + 4) ++ (data ++ (magicTail ++ rest)))))
  have h2 := beU32P_be n hn ([0, 0, 0, k]
    ++ (toBe32 (data.length + 4) ++ (data ++ (magicTail ++ rest))))
  have h3 := beU32P_cmd k hk
    (toBe32 (data.length + 4) ++ (data ++ (magicTail ++ rest)))
  have h4 := lengthDataP_exact data (magicTail ++ rest) hd
  have h5 := tagP_exact magicTail rest
  unfold parseFrame
  rw [h1, exBind_ok, h2, exBind_ok, h3, exBind_ok, h4, exBind_ok, h5,
    exBind_ok]

theorem parseFrame_nil : parseFrame ([] : Bytes) = .error (.err .tagC) := rfl

theorem many1Go_zero (buf : Bytes) (acc : List (Nat × Nat × Bytes)) :
    many1Go 0 buf acc = .ok (buf, acc.reverse) := rfl

theorem many1Go_succ_stop (fuel : Nat) (buf : Bytes)
    (acc : List (Nat × Nat × Bytes)) (c : NomCode)
    (h : parseFrame buf = .error (.err c)) :
    many1Go (fuel + 1) buf acc = .ok (buf, acc.reverse) := by
  unfold many1Go; rw [h]

theorem many1Go_succ_step (fuel : Nat) (buf : Bytes)
    (acc : List (Nat × Nat × Bytes)) (rest : Bytes) (s c : Nat) (d : Bytes)
    (h : parseFrame buf = .ok (rest, s, c, d)) :
    many1Go (fuel + 1) buf acc = many1Go fuel rest ((s, c, d) :: acc) := by
  conv_lhs => rw [many1Go]
  rw [h]

theorem many1Frames_step (buf rest : Bytes) (s c : Nat) (d : Bytes)
    (h : parseFrame buf = .ok (rest, s, c, d)) :
    many1Frames buf = many1Go rest.length rest [(s, c, d)] := by
  unfold many1Frames; rw [h]

theorem many1Frames_err (buf : Bytes) (e : NomErr)
    (h : parseFrame buf = .error e) : many1Frames buf = .error e := by
  unfold many1Frames; rw [h]

/-- A frame whose inner data is a payload region followed by a correct CRC
trailer and carries no return code is accepted and decoded. -/
theorem processOne_ok {P : Type} (ext : Ext P) (v : TuyaVersion)
    (orig : Bytes) (seq cmd : Nat) (reg : Bytes) (crcv : Nat)
    (hcrcv : crcv < 2 ^ 32)
    (hcrc : crc32 (orig.take (reg.length + 16)) = crcv) :
    processOne ext v orig seq cmd (reg ++ toBe32 crcv) none 0
      = .ok ⟨tryDecrypt ext v reg, commandOfNat cmd, some seq, none⟩ := by
  unfold processOne
  have hlen : (reg ++ toBe32 crcv).length = reg.length + 4 := by
    rw [List.length_append, toBe32_length]
  rw [hlen, if_neg (by omega),
    show reg.length + 4 - 4 = reg.length from by omega,
    List.drop_left' rfl, List.take_left' rfl]
  rw [show reg.length + 4 + 12 + 0 = reg.length + 16 from by omega, hcrc]
  simp only [toBe32, List.getD_cons_zero, List.getD_cons_succ]
  simp
  unfold fromBe32
  omega

/-- One step of the message loop when the first payload byte rules out a
return code. -/
theorem processFrames_cons_noret {P : Type} (ext : Ext P) (v : TuyaVersion)
    (orig : Bytes) (seq cmd b : Nat) (t : Bytes)
    (rest : List (Nat × Nat × Bytes)) (hb : b % 256 ≠ 0)
    (h4 : ¬ (b :: t).length < 4) :
    processFrames ext v orig ((seq, cmd, b :: t) :: rest)
      = match processOne ext v orig seq cmd (b :: t) none 0 with
        | .ok msg =>
          (match processFrames ext v orig rest with
           | .ok msgs => .ok (msg :: msgs)
           | other => other)
        | .nomE e => .nomE e
        | .panik => .panik := by
  have hnr : ¬ hasRetCode (b :: t) := by
    intro hcontra
    exact hb (by simpa [List.getD_cons_zero] using hcontra.1)
  conv_lhs => rw [processFrames]
  rw [if_neg h4, if_neg hnr, if_neg hnr, if_neg hnr]

theorem parseMessages_step {P : Type} (ext : Ext P) (v : TuyaVersion)
    (buf rest : Bytes) (frames : List (Nat × Nat × Bytes))
    (h : many1Frames buf = .ok (rest, frames)) :
    parseMessages ext v buf
      = match processFrames ext v buf frames with
        | .ok msgs => .ok (rest, msgs)
        | .nomE e => .nomE e
        | .panik => .panik := by
  unfold parseMessages; rw [h]

theorem parseMessages_err {P : Type} (ext : Ext P) (v : TuyaVersion)
    (buf : Bytes) (e : NomErr) (h : many1Frames buf = .error e) :
    parseMessages ext v buf = .nomE e := by
  unfold parseMessages; rw [h]

theorem parse_of_ok {P : Type} (ext : Ext P) (v : TuyaVersion) (buf : Bytes)
    (msgs : List (Message P))
    (h : parseMessages ext v buf = .ok ([], msgs)) :
    parse ext v buf = .ok msgs := by
  unfold parse; rw [h]; rfl

theorem parse_of_leftover {P : Type} (ext : Ext P) (v : TuyaVersion)
    (buf rest : Bytes) (msgs : List (Message P))
    (h : parseMessages ext v buf = .ok (rest, msgs)) (hrest : rest ≠ []) :
    parse ext v buf = .err .bufferNotCompletelyParsedError := by
  unfold parse; rw [h]
  exact if_neg hrest

/-- Command discriminants are bytes. -/
theorem commandToNat_lt (c : CommandType) : c.toNat < 256 := by
  cases c <;> decide

/-- Parsing a single well-formed no-return-code frame as produced by encode:
the frame is matched, the CRC recomputation coincides with the stored
trailer, the return-code test fails on the first payload byte, and the
decoded message carries the decrypted payload region. -/
theorem parse_single_frame {P : Type} (ext : Ext P) (v : TuyaVersion)
    (reg : Bytes) (n : Nat) (c : CommandType) (b : Nat) (t : Bytes)
    (hreg : reg = b :: t) (hb : b % 256 ≠ 0) (hn : n < 2 ^ 32)
    (hlen : reg.length + 12 < 2 ^ 32) :
    parse ext v ((magicHead ++ toBe32 n ++ [0, 0, 0, c.toNat]
        ++ toBe32 (reg.length + 8) ++ [] ++ reg)
      ++ toBe32 (crc32 (magicHead ++ toBe32 n ++ [0, 0, 0, c.toNat]
        ++ toBe32 (reg.length + 8) ++ [] ++ reg))
      ++ magicTail)
      = .ok [⟨tryDecrypt ext v reg, commandOfNat c.toNat, some n, none⟩] := by
  set body := magicHead ++ toBe32 n ++ [0, 0, 0, c.toNat]
    ++ toBe32 (reg.length + 8) ++ [] ++ reg with hbody
  set crcB := toBe32 (crc32 body) with hcrcB
  have hblen : body.length = reg.length + 16 := by
    rw [hbody]
    simp only [magicHead, toBe32, List.length_append, List.length_cons,
      List.length_nil]
    omega
  have hcblen : crcB.length = 4 := by rw [hcrcB, toBe32_length]
  have hdlen : (reg ++ crcB).length + 4 < 2 ^ 32 := by
    rw [List.length_append, hcblen]; omega
  have hbuf : body ++ crcB ++ magicTail
      = magicHead ++ (toBe32 n ++ ([0, 0, 0, c.toNat]
        ++ (toBe32 ((reg ++ crcB).length + 4)
          ++ ((reg ++ crcB) ++ (magicTail ++ []))))) := by
    rw [show (reg ++ crcB).length + 4 = reg.length + 8 from by
      rw [List.length_append, hcblen]]
    rw [hbody]
    simp [List.append_assoc]
  have hpf := parseFrame_frame n c.toNat (reg ++ crcB) [] hn
    (commandToNat_lt c) hdlen
  have hmany : many1Frames (body ++ crcB ++ magicTail)
      = .ok ([], [(n, c.toNat, reg ++ crcB)]) := by
    rw [hbuf, many1Frames_step _ _ _ _ _ hpf]
    rfl
  have htake : (body ++ crcB ++ magicTail).take (reg.length + 16) = body := by
    rw [List.append_assoc]
    exact List.take_left' hblen
  have hdata : reg ++ crcB = b :: (t ++ crcB) := by rw [hreg]; rfl
  have hproc : processFrames ext v (body ++ crcB ++ magicTail)
      [(n, c.toNat, reg ++ crcB)]
      = .ok [⟨tryDecrypt ext v reg, commandOfNat c.toNat, some n, none⟩] := by
    rw [hdata, processFrames_cons_noret ext v _ n c.toNat b (t ++ crcB) [] hb
      (by simp only [List.length_cons, List.length_append, hcblen]; omega)]
    rw [← hdata, hcrcB,
      processOne_ok ext v _ n c.toNat reg (crc32 body) (crc32_lt body)
        (by rw [← hcrcB, htake])]
    rfl
  exact parse_of_ok ext v _ _
    (by rw [parseMessages_step _ _ _ _ _ hmany, hproc])

/-- The byte string produced by encode for a message without a return code,
read off the definition. -/
theorem encode_noret_eq {P : Type} (ext : Ext P) (key : Bytes)
    (v : TuyaVersion) (pl : Payload P) (c : CommandType) (sq : Option Nat)
    (flag : Bool) :
    encode ext key v ⟨pl, some c, sq, none⟩ flag
      = .ok ((magicHead ++ toBe32 (sq.getD 0) ++ [0, 0, 0, c.toNat]
          ++ toBe32 (((createPayloadHeader ext key v ⟨pl, some c, sq, none⟩
              flag).length % 2 ^ 32 + 8 + 0) % 2 ^ 32)
          ++ [] ++ createPayloadHeader ext key v ⟨pl, some c, sq, none⟩ flag)
        ++ toBe32 (crc32 (magicHead ++ toBe32 (sq.getD 0) ++ [0, 0, 0, c.toNat]
          ++ toBe32 (((createPayloadHeader ext key v ⟨pl, some c, sq, none⟩
              flag).length % 2 ^ 32 + 8 + 0) % 2 ^ 32)
          ++ [] ++ createPayloadHeader ext key v ⟨pl, some c, sq, none⟩ flag))
        ++ magicTail) := rfl

/-- Shape and decodability of the payload region in the round-trippable
modes: it starts with a nonzero byte (so no bogus return code is detected)
and `try_decrypt` recovers the structured payload. -/
theorem mode_analysis {P : Type} (ext : Ext P) (hext : ExtOk ext)
    (key : Bytes) (v : TuyaVersion) (flag : Bool) (p : P) (c : CommandType)
    (sq : Option Nat)
    (h31 : v = .threeOne → flag = false)
    (h33 : v = .threeThree → (c = .dpQuery ∨ c = .dpRefresh) →
      (ext.aesEnc (ext.jsonSer p)).take 3 ≠ [0x33, 0x2E, 0x33]
      ∧ (ext.aesEnc (ext.jsonSer p)).headD 0 % 256 ≠ 0) :
    ∃ b t,
      createPayloadHeader ext key v ⟨.struct p, some c, sq, none⟩ flag = b :: t
      ∧ b % 256 ≠ 0
      ∧ tryDecrypt ext v
          (createPayloadHeader ext key v ⟨.struct p, some c, sq, none⟩ flag)
          = .struct p := by
  cases v with
  | threeOne =>
    have hf : flag = false := h31 rfl
    subst hf
    have hreg : createPayloadHeader ext key .threeOne
        ⟨.struct p, some c, sq, none⟩ false = ext.jsonSer p := rfl
    obtain ⟨t, ht⟩ := jsonSer_cons hext p
    exact ⟨0x7B, t, hreg.trans ht, by omega,
      by rw [hreg]; exact tryDecrypt_31_plain hext p⟩
  | threeThree =>
    by_cases hdp : c = CommandType.dpQuery ∨ c = CommandType.dpRefresh
    · have hc : some c = some CommandType.dpQuery
          ∨ some c = some CommandType.dpRefresh :=
        hdp.imp (fun h => by rw [h]) (fun h => by rw [h])
      have hreg : createPayloadHeader ext key .threeThree
          ⟨.struct p, some c, sq, none⟩ flag
          = ext.aesEnc (ext.jsonSer p) := by
        show (if some c = some CommandType.dpQuery
              ∨ some c = some CommandType.dpRefresh
            then cipherEncrypt ext .threeThree (ext.jsonSer p)
            else createPayloadWithHeader ext key .threeThree (ext.jsonSer p))
          = ext.aesEnc (ext.jsonSer p)
        rw [if_pos hc]
        rfl
      obtain ⟨hcol, hhd⟩ := h33 rfl hdp
      obtain ⟨b, t, hbt⟩ : ∃ b t, ext.aesEnc (ext.jsonSer p) = b :: t := by
        cases hae : ext.aesEnc (ext.jsonSer p) with
        | nil => exact absurd hae (hext.enc_ne _)
        | cons b t => exact ⟨b, t, rfl⟩
      refine ⟨b, t, hreg.trans hbt, ?_, ?_⟩
      · rw [hbt] at hhd
        simpa using hhd
      · rw [hreg]
        exact tryDecrypt_33_raw hext p hcol
    · have hnc : ¬ (some c = some CommandType.dpQuery
          ∨ some c = some CommandType.dpRefresh) := by
        rintro (h | h)
        · exact hdp (Or.inl (Option.some.inj h))
        · exact hdp (Or.inr (Option.some.inj h))
      have hreg : createPayloadHeader ext key .threeThree
          ⟨.struct p, some c, sq, none⟩ flag
          = createPayloadWithHeader ext key .threeThree (ext.jsonSer p) := by
        show (if some c = some CommandType.dpQuery
              ∨ some c = some CommandType.dpRefresh
            then cipherEncrypt ext .threeThree (ext.jsonSer p)
            else createPayloadWithHeader ext key .threeThree (ext.jsonSer p))
          = createPayloadWithHeader ext key .threeThree (ext.jsonSer p)
        rw [if_neg hnc]
      have hcons : createPayloadWithHeader ext key .threeThree (ext.jsonSer p)
          = 0x33 :: (([0x2E, 0x33]
            ++ cipherMd5 ext key .threeThree (ext.jsonSer p))
            ++ cipherEncrypt ext .threeThree (ext.jsonSer p)) := rfl
      exact ⟨0x33, _, hreg.trans hcons, by omega,
        by rw [hreg]; exact tryDecrypt_33_header hext key p⟩

/-- Parsing the concatenation of two copies of the same well-formed frame:
the CRC recomputed for the second frame is taken over the start of the
whole buffer, which coincides with the second frame's stored CRC exactly
because the two frames are identical. -/
theorem parse_double_frame {P : Type} (ext : Ext P) (v : TuyaVersion)
    (reg : Bytes) (n : Nat) (c : CommandType) (b : Nat) (t : Bytes)
    (hreg : reg = b :: t) (hb : b % 256 ≠ 0) (hn : n < 2 ^ 32)
    (hlen : reg.length + 12 < 2 ^ 32) :
    parse ext v
      (((magicHead ++ toBe32 n ++ [0, 0, 0, c.toNat]
          ++ toBe32 (reg.length + 8) ++ [] ++ reg)
        ++ toBe32 (crc32 (magicHead ++ toBe32 n ++ [0, 0, 0, c.toNat]
          ++ toBe32 (reg.length + 8) ++ [] ++ reg))
        ++ magicTail)
      ++ ((magicHead ++ toBe32 n ++ [0, 0, 0, c.toNat]
          ++ toBe32 (reg.length + 8) ++ [] ++ reg)
        ++ toBe32 (crc32 (magicHead ++ toBe32 n ++ [0, 0, 0, c.toNat]
          ++ toBe32 (reg.length + 8) ++ [] ++ reg))
        ++ magicTail))
      = .ok [⟨tryDecrypt ext v reg, commandOfNat c.toNat, some n, none⟩,
             ⟨tryDecrypt ext v reg, commandOfNat c.toNat, some n, none⟩] := by
  set body := magicHead ++ toBe32 n ++ [0, 0, 0, c.toNat]
    ++ toBe32 (reg.length + 8) ++ [] ++ reg with hbody
  set crcB := toBe32 (crc32 body) with hcrcB
  have hblen : body.length = reg.length + 16 := by
    rw [hbody]
    simp only [magicHead, toBe32, List.length_append, List.length_cons,
      List.length_nil]
    omega
  have hcblen : crcB.length = 4 := by rw [hcrcB, toBe32_length]
  have hdlen : (reg ++ crcB).length + 4 < 2 ^ 32 := by
    rw [List.length_append, hcblen]; omega
  have hflen : (body ++ crcB ++ magicTail).length = reg.length + 24 := by
    simp only [List.length_append, hblen, hcblen, magicTail,
      List.length_cons, List.length_nil]
  have hbuf0 : body ++ crcB ++ magicTail
      = magicHead ++ (toBe32 n ++ ([0, 0, 0, c.toNat]
        ++ (toBe32 ((reg ++ crcB).length + 4)
          ++ ((reg ++ crcB) ++ (magicTail ++ []))))) := by
    rw [show (reg ++ crcB).length + 4 = reg.length + 8 from by
      rw [List.length_append, hcblen]]
    rw [hbody]
    simp [List.append_assoc]
  have hbuf1 : (body ++ crcB ++ magicTail) ++ (body ++ crcB ++ magicTail)
      = magicHead ++ (toBe32 n ++ ([0, 0, 0, c.toNat]
        ++ (toBe32 ((reg ++ crcB).length + 4)
          ++ ((reg ++ crcB)
            ++ (magicTail ++ (body ++ crcB ++ magicTail)))))) := by
    rw [show (reg ++ crcB).length + 4 = reg.length + 8 from by
      rw [List.length_append, hcblen]]
    rw [hbody]
    simp [List.append_assoc]
  have hpf0 : parseFrame (body ++ crcB ++ magicTail)
      = .ok ([], n, c.toNat, reg ++ crcB) := by
    rw [hbuf0]
    exact parseFrame_frame n c.toNat (reg ++ crcB) [] hn
      (commandToNat_lt c) hdlen
  have hpf1 := parseFrame_frame n c.toNat (reg ++ crcB)
    (body ++ crcB ++ magicTail) hn (commandToNat_lt c) hdlen
  have hmany : many1Frames ((body ++ crcB ++ magicTail)
        ++ (body ++ crcB ++ magicTail))
      = .ok ([], [(n, c.toNat, reg ++ crcB), (n, c.toNat, reg ++ crcB)]) := by
    rw [hbuf1, many1Frames_step _ _ _ _ _ hpf1]
    obtain ⟨f1, hf1⟩ : ∃ f1, (body ++ crcB ++ magicTail).length = f1 + 1 :=
      ⟨(body ++ crcB ++ magicTail).length - 1, by omega⟩
    rw [hf1, many1Go_succ_step _ _ _ _ _ _ _ hpf0]
    cases f1 with
    | zero => rfl
    | succ f2 =>
      rw [many1Go_succ_stop _ _ _ _ parseFrame_nil]
      rfl
  have htake : ((body ++ crcB ++ magicTail) ++ (body ++ crcB ++ magicTail)).take
      (reg.length + 16) = body := by
    rw [List.take_append_of_le_length (by omega), List.append_assoc]
    exact List.take_left' hblen
  have hdata : reg ++ crcB = b :: (t ++ crcB) := by rw [hreg]; rfl
  have hone : processOne ext v ((body ++ crcB ++ magicTail)
        ++ (body ++ crcB ++ magicTail)) n c.toNat (reg ++ crcB) none 0
      = .ok ⟨tryDecrypt ext v reg, commandOfNat c.toNat, some n, none⟩ := by
    rw [hcrcB]
    exact processOne_ok ext v _ n c.toNat reg (crc32 body) (crc32_lt body)
      (by rw [← hcrcB, htake])
  have hproc : processFrames ext v ((body ++ crcB ++ magicTail)
        ++ (body ++ crcB ++ magicTail))
      [(n, c.toNat, reg ++ crcB), (n, c.toNat, reg ++ crcB)]
      = .ok [⟨tryDecrypt ext v reg, commandOfNat c.toNat, some n, none⟩,
             ⟨tryDecrypt ext v reg, commandOfNat c.toNat, some n, none⟩] := by
    rw [hdata]
    rw [processFrames_cons_noret ext v _ n c.toNat b (t ++ crcB)
      [(n, c.toNat, b :: (t ++ crcB))] hb
      (by simp only [List.length_cons, List.length_append, hcblen]; omega)]
    rw [processFrames_cons_noret ext v _ n c.toNat b (t ++ crcB) [] hb
      (by simp only [List.length_cons, List.length_append, hcblen]; omega)]
    rw [← hdata, hone]
    rfl
  exact parse_of_ok ext v _ _
    (by rw [parseMessages_step _ _ _ _ _ hmany, hproc])

/-- C1, amended: encode-then-parse returns exactly the original message for
a structured payload with a command, a sequence number and no return code,
under 3.1 with the encrypt flag unset and under 3.3 (for DpQuery/DpRefresh
provided the raw ciphertext neither starts with the "3.3" tag nor with a
zero byte), with the payload region short enough for the u32 length field.
The excluded combinations genuinely fail on the code: 3.1 with the encrypt
flag set writes a 15-byte header but decode strips 19 bytes, a Some return
code is emitted as one byte although the length field accounts for four,
and an absent sequence number is encoded as 0 and decoded as Some 0. -/
theorem c1_parse_encode_roundtrip {P : Type} (ext : Ext P) (hext : ExtOk ext)
    (key : Bytes) (v : TuyaVersion) (flag : Bool) (m : Message P) (p : P)
    (c : CommandType) (n : Nat) (out : Bytes)
    (hm : m = ⟨.struct p, some c, some n, none⟩)
    (hn : n < 2 ^ 32)
    (h31 : v = .threeOne → flag = false)
    (h33 : v = .threeThree → (c = .dpQuery ∨ c = .dpRefresh) →
      (ext.aesEnc (ext.jsonSer p)).take 3 ≠ [0x33, 0x2E, 0x33]
      ∧ (ext.aesEnc (ext.jsonSer p)).headD 0 % 256 ≠ 0)
    (hlen : (createPayloadHeader ext key v m flag).length + 12 < 2 ^ 32)
    (henc : encode ext key v m flag = .ok out) :
    parse ext v out = .ok [m] := by
  subst hm
  obtain ⟨b, t, hbt, hb, htd⟩ :=
    mode_analysis ext hext key v flag p c (some n) h31 h33
  have h0 := encode_noret_eq ext key v (.struct p) c (some n) flag
  simp only [Option.getD_some] at h0
  rw [show ((createPayloadHeader ext key v
        ⟨Payload.struct p, some c, some n, none⟩ flag).length % 2 ^ 32 + 8 + 0)
        % 2 ^ 32
      = (createPayloadHeader ext key v
        ⟨Payload.struct p, some c, some n, none⟩ flag).length + 8
    from by omega] at h0
  rw [h0] at henc
  have hout := Except.ok.inj henc
  subst hout
  rw [parse_single_frame ext v _ n c b t hbt hb hn hlen, htd,
    commandOfNat_toNat]

/-- Decrypting the empty payload region fails in the cipher (AES rejects
empty input) and in the JSON fallback, giving the empty string payload. -/
theorem tryDecrypt_empty {P : Type} {ext : Ext P} (hext : ExtOk ext)
    (v : TuyaVersion) : tryDecrypt ext v [] = .str [] := by
  have hdec : cipherDecrypt ext v [] = none := by
    have hnil : ext.aesDec [] = none := hext.dec_bad_len [] (Or.inr rfl)
    cases v <;> simp [cipherDecrypt, maybeStripHeader, b64decode, hnil]
  simp [tryDecrypt, hdec, hext.deser_nil, utf8OrInvalid, isUtf8]

/-! ## C1 -/

/-- C1 is refuted on the 3.1-with-encrypt-flag mode: encoding `mesOne` under
3.1 with the flag set yields `frameOneEncrypted`, whose payload region is
"3.1", twelve zero bytes and the base64 ciphertext, but parsing does not
return the message: the decoder strips 19 bytes (expecting the 16-hex-digit
device header) although encode wrote a 15-byte header, so decryption fails
and the payload comes back as a string of the raw region bytes. -/
theorem c1_roundtrip_counterexample :
    encode mockExt [] .threeOne mesOne true = .ok frameOneEncrypted
    ∧ parse mockExt .threeOne frameOneEncrypted ≠ .ok [mesOne]
    ∧ parse mockExt .threeOne frameOneEncrypted
      = .ok [⟨.str [51, 46, 49, 0, 0, 0, 0, 0, 0, 0, 0, 0, 0, 0, 0,
          101, 51, 48, 79, 68, 103, 52, 79, 68, 103, 52, 79, 68, 103, 52,
          79, 68, 103, 52, 79, 68, 103, 61, 61],
        some .control, some 1, none⟩] := by
  refine ⟨?_, by decide, by decide⟩
  have h1 : createPayloadHeader mockExt [] .threeOne
      ⟨.struct (), some .control, some 1, none⟩ true
      = [51, 46, 49, 0, 0, 0, 0, 0, 0, 0, 0, 0, 0, 0, 0,
         101, 51, 48, 79, 68, 103, 52, 79, 68, 103, 52, 79, 68, 103, 52,
         79, 68, 103, 52, 79, 68, 103, 61, 61] := by decide
  have h0 := encode_noret_eq mockExt [] .threeOne (.struct ()) .control
    (some 1) true
  rw [h1] at h0
  show encode mockExt [] .threeOne
      ⟨.struct (), some .control, some 1, none⟩ true = .ok frameOneEncrypted
  rw [h0]
  decide

/-- C1 witness: the amended round-trip at a concrete instance (3.1, flag
unset, the PKCS#7 witness cipher). -/
theorem c1_roundtrip_witness :
    parse mockExt .threeOne frameOne = .ok [mesOne] :=
  c1_parse_encode_roundtrip mockExt mockExtOk [] .threeOne false mesOne ()
    .control 1 frameOne rfl (by decide) (fun _ => rfl) (fun h => nomatch h)
    (by decide) (by decide)

/-! ## C2 -/

/-- C2 is refuted on two distinct messages: each encodes to a valid frame,
but parsing the concatenation fails with CRCError, because the CRC for the
second frame is recomputed over the first bytes of the whole buffer (from
offset 0) rather than over the second frame. -/
theorem c2_concat_counterexample :
    encode mockExt [] .threeOne mesOne false = .ok frameOne
    ∧ encode mockExt [] .threeOne mesTwo false = .ok frameTwo
    ∧ parse mockExt .threeOne (frameOne ++ frameTwo) = .err .crcError
    ∧ parse mockExt .threeOne (frameOne ++ frameTwo)
      ≠ .ok [mesOne, mesTwo] := by
  refine ⟨by decide, by decide, by decide, by decide⟩

/-- C2, amended: concatenation round-trips when the two messages are equal
(their frames are then byte-identical, so the CRC recomputed over the start
of the buffer coincides with the second frame's stored CRC), under the same
side conditions as the single-frame round-trip. -/
theorem c2_parse_concat_amended {P : Type} (ext : Ext P) (hext : ExtOk ext)
    (key : Bytes) (v : TuyaVersion) (flag : Bool) (m : Message P) (p : P)
    (c : CommandType) (n : Nat) (out : Bytes)
    (hm : m = ⟨.struct p, some c, some n, none⟩)
    (hn : n < 2 ^ 32)
    (h31 : v = .threeOne → flag = false)
    (h33 : v = .threeThree → (c = .dpQuery ∨ c = .dpRefresh) →
      (ext.aesEnc (ext.jsonSer p)).take 3 ≠ [0x33, 0x2E, 0x33]
      ∧ (ext.aesEnc (ext.jsonSer p)).headD 0 % 256 ≠ 0)
    (hlen : (createPayloadHeader ext key v m flag).length + 12 < 2 ^ 32)
    (henc : encode ext key v m flag = .ok out) :
    parse ext v (out ++ out) = .ok [m, m] := by
  subst hm
  obtain ⟨b, t, hbt, hb, htd⟩ :=
    mode_analysis ext hext key v flag p c (some n) h31 h33
  have h0 := encode_noret_eq ext key v (.struct p) c (some n) flag
  simp only [Option.getD_some] at h0
  rw [show ((createPayloadHeader ext key v
        ⟨Payload.struct p, some c, some n, none⟩ flag).length % 2 ^ 32 + 8 + 0)
        % 2 ^ 32
      = (createPayloadHeader ext key v
        ⟨Payload.struct p, some c, some n, none⟩ flag).length + 8
    from by omega] at h0
  rw [h0] at henc
  have hout := Except.ok.inj henc
  subst hout
  rw [parse_double_frame ext v _ n c b t hbt hb hn hlen, htd,
    commandOfNat_toNat]

/-- C2 witness: the amended concatenation round-trip at the same concrete
instance as the C1 witness. -/
theorem c2_concat_witness :
    parse mockExt .threeOne (frameOne ++ frameOne) = .ok [mesOne, mesOne] :=
  c2_parse_concat_amended mockExt mockExtOk [] .threeOne false mesOne ()
    .control 1 frameOne rfl (by decide) (fun _ => rfl) (fun h => nomatch h)
    (by decide) (by decide)

/-! ## C3 -/

/-- C3 evaluated on the code: encoding a message whose ret_code is Some 0
(command HeartBeat, one payload byte 0x78) emits a single zero byte for the
return code (`u8::to_be_bytes`), not a 4-byte big-endian word, while the
length field still declares payload length + 12; the whole frame is
16 + 1 + 1 + 8 = 26 bytes instead of the 16 + 4 + 1 + 8 = 29 the claim
implies. -/
theorem c3_retcode_one_byte :
    encode mockExt [] .threeOne ⟨.str [0x78], some .heartBeat, some 1, some 0⟩
        false
      = .ok [0, 0, 85, 170, 0, 0, 0, 1, 0, 0, 0, 9, 0, 0, 0, 13,
             0, 120, 118, 70, 153, 66, 0, 0, 170, 85]
    ∧ ([0, 0, 85, 170, 0, 0, 0, 1, 0, 0, 0, 9, 0, 0, 0, 13,
        0, 120, 118, 70, 153, 66, 0, 0, 170, 85] : Bytes).length = 26 := by
  refine ⟨by decide, by decide⟩

/-! ## C4 -/

/-- C4 is refuted under 3.3 on a plaintext whose ciphertext begins with the
bytes of the "3.3" tag: the decoder strips 15 bytes from the ciphertext,
leaving a length that is not a whole number of blocks, so AES decryption
fails and the round trip returns an error instead of the plaintext. -/
theorem c4_cipher_counterexample :
    cipherEncrypt mockExt .threeThree
        [0x33, 0x2E, 0x33, 0, 0, 0, 0, 0, 0, 0, 0, 0, 0, 0, 0, 0]
      = [0x33, 0x2E, 0x33, 0, 0, 0, 0, 0, 0, 0, 0, 0, 0, 0, 0, 0]
        ++ List.replicate 16 16
    ∧ cipherDecrypt mockExt .threeThree
        (cipherEncrypt mockExt .threeThree
          [0x33, 0x2E, 0x33, 0, 0, 0, 0, 0, 0, 0, 0, 0, 0, 0, 0, 0])
      = none := by
  refine ⟨by decide, by decide⟩

/-- C4, amended: decrypt inverts encrypt for every byte string under 3.1
(base64 output can never start with the "3.1" tag, since '.' is not in the
base64 alphabet), and under 3.3 whenever the ciphertext does not begin with
the three bytes of the "3.3" tag. -/
theorem c4_cipher_roundtrip_amended {P : Type} (ext : Ext P)
    (hext : ExtOk ext) (v : TuyaVersion) (x : Bytes)
    (hx : ∀ b ∈ x, b < 256)
    (hcol : v = .threeThree → (ext.aesEnc x).take 3 ≠ [0x33, 0x2E, 0x33]) :
    cipherDecrypt ext v (cipherEncrypt ext v x) = some x := by
  cases v with
  | threeOne =>
    have hstrip := maybeStrip_31_b64enc (ext.aesEnc x)
    have hb64 := b64decode_encode (ext.aesEnc x) (hext.enc_bytes x hx)
    simp [cipherDecrypt, cipherEncrypt, hstrip, hb64, hext.dec_enc]
  | threeThree =>
    have hstrip : maybeStripHeader .threeThree (ext.aesEnc x)
        = ext.aesEnc x := by
      unfold maybeStripHeader
      rw [if_neg]
      rintro ⟨-, h⟩
      exact hcol rfl h
    simp [cipherDecrypt, cipherEncrypt, hstrip, hext.dec_enc]

/-- C4 witness: the amended cipher round-trip at a concrete input. -/
theorem c4_cipher_witness :
    cipherDecrypt mockExt .threeOne
      (cipherEncrypt mockExt .threeOne [1, 2, 3]) = some [1, 2, 3] :=
  c4_cipher_roundtrip_amended mockExt mockExtOk .threeOne [1, 2, 3]
    (by decide) (fun h => nomatch h)

/-! ## C5 -/

/-- C5: under 3.3 the payload region is the raw ciphertext for DpQuery and
DpRefresh and otherwise the "3.3" tag, the 12 middle bytes of the MD5
digest of the hash line, and the ciphertext; and the encrypt flag never
changes the encoded bytes. -/
theorem c5_33_payload_region {P : Type} (ext : Ext P) (key : Bytes)
    (m : Message P) (c : CommandType) (flag : Bool)
    (hc : m.command = some c) :
    createPayloadHeader ext key .threeThree m flag
      = (if c = .dpQuery ∨ c = .dpRefresh
         then ext.aesEnc (tryIntoBytes ext m.payload)
         else [0x33, 0x2E, 0x33]
           ++ ((ext.md5c (hashLine key .threeThree
               (tryIntoBytes ext m.payload))).drop 4).take 12
           ++ ext.aesEnc (tryIntoBytes ext m.payload))
    ∧ encode ext key .threeThree m true = encode ext key .threeThree m false := by
  constructor
  · show (if m.command = some .dpQuery ∨ m.command = some .dpRefresh
        then cipherEncrypt ext .threeThree (tryIntoBytes ext m.payload)
        else createPayloadWithHeader ext key .threeThree
          (tryIntoBytes ext m.payload)) = _
    rw [hc]
    by_cases hdp : c = CommandType.dpQuery ∨ c = CommandType.dpRefresh
    · rw [if_pos (hdp.imp (fun h => by rw [h]) (fun h => by rw [h])),
        if_pos hdp]
      rfl
    · rw [if_neg, if_neg hdp]
      · rfl
      · rintro (h | h)
        · exact hdp (Or.inl (Option.some.inj h))
        · exact hdp (Or.inr (Option.some.inj h))
  · rfl

/-- C5 witness: the 3.3 region shape and flag irrelevance at a concrete
message. -/
theorem c5_33_witness :
    createPayloadHeader mockExt [] .threeThree mesOne true
      = (if CommandType.control = .dpQuery ∨ CommandType.control = .dpRefresh
         then mockExt.aesEnc (tryIntoBytes mockExt mesOne.payload)
         else [0x33, 0x2E, 0x33]
           ++ ((mockExt.md5c (hashLine [] .threeThree
               (tryIntoBytes mockExt mesOne.payload))).drop 4).take 12
           ++ mockExt.aesEnc (tryIntoBytes mockExt mesOne.payload))
    ∧ encode mockExt [] .threeThree mesOne true
      = encode mockExt [] .threeThree mesOne false :=
  c5_33_payload_region mockExt [] mesOne .control true rfl

/-! ## C6 -/

/-- C6 is refuted on the input "a.1": the major token does not end in '3',
so the error carries the literal "Unknown" pair instead of the major and
minor tokens the claim promises. -/
theorem c6_version_counterexample :
    tuyaVersionFromStr ['a', '.', '1']
      = .error (.versionError unknownStr unknownStr)
    ∧ (Except.error (ErrKind.versionError unknownStr unknownStr)
        : Except ErrKind TuyaVersion)
      ≠ .error (.versionError ['a'] ['1']) := by
  refine ⟨by decide, by decide⟩

/-- C6, amended: full characterization of version parsing.  Success cases
are as the claim states; a failing input carries the major and minor tokens
only when the input splits into more than one token and the major token
ends in '3' (the minor then being neither "1" nor "3"); every other failing
input carries the "Unknown"/"Unknown" pair. -/
theorem c6_version_parse_amended (s : List Char) :
    (tuyaVersionFromStr s = .ok .threeOne ↔
      1 < (splitDot s).length
        ∧ ((splitDot s).getD 0 []).getLast? = some '3'
        ∧ (splitDot s).getD 1 [] = ['1'])
    ∧ (tuyaVersionFromStr s = .ok .threeThree ↔
      1 < (splitDot s).length
        ∧ ((splitDot s).getD 0 []).getLast? = some '3'
        ∧ (splitDot s).getD 1 [] = ['3'])
    ∧ (1 < (splitDot s).length →
        ((splitDot s).getD 0 []).getLast? = some '3' →
        (splitDot s).getD 1 [] ≠ ['1'] → (splitDot s).getD 1 [] ≠ ['3'] →
        tuyaVersionFromStr s
          = .error (.versionError ((splitDot s).getD 0 [])
              ((splitDot s).getD 1 [])))
    ∧ (¬(1 < (splitDot s).length
          ∧ ((splitDot s).getD 0 []).getLast? = some '3') →
        tuyaVersionFromStr s
          = .error (.versionError unknownStr unknownStr)) := by
  unfold tuyaVersionFromStr
  split_ifs with h1 h2 h3 h4 <;> simp_all

/-- C6 witness: the characterization applied to the inputs named by the
spec. -/
theorem c6_version_witness :
    tuyaVersionFromStr ['v', 'e', 'r', '3', '.', '3'] = .ok .threeThree
    ∧ tuyaVersionFromStr ['3', '.', '1'] = .ok .threeOne
    ∧ tuyaVersionFromStr ['3', '.', '4']
      = .error (.versionError ['3'] ['4']) :=
  ⟨(c6_version_parse_amended ['v', 'e', 'r', '3', '.', '3']).2.1.mpr
    (by decide),
   (c6_version_parse_amended ['3', '.', '1']).1.mpr (by decide),
   (c6_version_parse_amended ['3', '.', '4']).2.2.1 (by decide) (by decide)
    (by decide) (by decide)⟩

/-! ## C7 -/

/-- C7 is refuted: with a 16-byte key but an unparseable version string the
construction still fails, so construction success is not equivalent to the
key being 16 bytes. -/
theorem c7_key_counterexample :
    parserCreate mockExt ['3', '.', '4'] (some udpKeyBytes)
      = .error (.versionError ['3'] ['4'])
    ∧ udpKeyBytes.length = 16 := by
  refine ⟨by decide, by decide⟩

/-- C7, amended: once the version string parses, construction with a
supplied key succeeds exactly when the key is 16 bytes and otherwise fails
with KeyLength carrying the actual length; with no key it succeeds and the
cipher key is the 16-byte MD5 digest of the UDP key constant. -/
theorem c7_key_verification_amended {P : Type} (ext : Ext P)
    (hext : ExtOk ext) (ver : List Char) (v : TuyaVersion)
    (hv : tuyaVersionFromStr ver = .ok v) :
    (∀ k : Bytes, k.length = 16 → parserCreate ext ver (some k) = .ok (v, k))
    ∧ (∀ k : Bytes, k.length ≠ 16 →
        parserCreate ext ver (some k) = .error (.keyLength k.length))
    ∧ parserCreate ext ver none = .ok (v, ext.md5c udpKeyBytes)
    ∧ (ext.md5c udpKeyBytes).length = 16 := by
  refine ⟨?_, ?_, ?_, hext.md5_len _⟩
  · intro k hk
    simp [parserCreate, hv, verifyKey, hk]
  · intro k hk
    simp [parserCreate, hv, verifyKey, hk]
  · simp [parserCreate, hv, verifyKey]

/-- C7 witness: construction with the parseable "3.1" and a 16-byte key. -/
theorem c7_key_witness :
    parserCreate mockExt ['3', '.', '1'] (some udpKeyBytes)
      = .ok (.threeOne, udpKeyBytes) :=
  (c7_key_verification_amended mockExt mockExtOk ['3', '.', '1'] .threeOne
    (by decide)).1 udpKeyBytes (by decide)

/-! ## C8 -/

/-- C8: parsing the 28-byte heartbeat frame, with any version and any
cipher respecting the external-crate contract, yields exactly one message
with command HeartBeat, sequence number 0, return code 0 and the empty
string payload, with nothing left over. -/
theorem c8_heartbeat_parse {P : Type} (ext : Ext P) (hext : ExtOk ext)
    (v : TuyaVersion) :
    parse ext v heartbeatBytes
      = .ok [⟨.str [], some .heartBeat, some 0, some 0⟩] := by
  have hmany : many1Frames heartbeatBytes
      = .ok ([], [(0, 9, [0, 0, 0, 0, 0xB0, 0x51, 0xAB, 0x03])]) := by
    decide
  have hret : hasRetCode [0, 0, 0, 0, 0xB0, 0x51, 0xAB, 0x03] := by decide
  have hone : processOne ext v heartbeatBytes 0 9 [0xB0, 0x51, 0xAB, 0x03]
        (some 0) 4
      = .ok ⟨tryDecrypt ext v [], commandOfNat 9, some 0, some 0⟩ := by
    unfold processOne
    rw [if_neg (by decide), if_neg (by decide)]
    rfl
  have hproc : processFrames ext v heartbeatBytes
      [(0, 9, [0, 0, 0, 0, 0xB0, 0x51, 0xAB, 0x03])]
      = .ok [⟨tryDecrypt ext v [], commandOfNat 9, some 0, some 0⟩] := by
    conv_lhs => rw [processFrames]
    rw [if_neg (by decide), if_pos hret, if_pos hret, if_pos hret]
    rw [show ([0, 0, 0, 0, 0xB0, 0x51, 0xAB, 0x03] : Bytes).drop 4
        = [0xB0, 0x51, 0xAB, 0x03] from rfl,
      show (([0, 0, 0, 0, 0xB0, 0x51, 0xAB, 0x03] : Bytes).getD 3 0 % 256)
        = 0 from rfl,
      hone]
    rfl
  rw [tryDecrypt_empty hext v] at hproc
  exact parse_of_ok ext v _ _
    (by rw [parseMessages_step _ _ _ _ _ hmany, hproc]; rfl)

/-- C8 witness: the heartbeat parse at the concrete witness instance. -/
theorem c8_heartbeat_witness :
    parse mockExt .threeOne heartbeatBytes
      = .ok [⟨.str [], some .heartBeat, some 0, some 0⟩] :=
  c8_heartbeat_parse mockExt mockExtOk .threeOne

/-! ## C9 -/

/-- C9 is refuted: a buffer whose first 28 bytes are a complete heartbeat
frame followed by 16 trailing bytes that look like the start of a longer
frame fails with ParsingIncomplete (the length reader wants more input),
not with BufferNotCompletelyParsedError. -/
theorem c9_trailing_counterexample :
    parse mockExt .threeOne heartbeatBytes
      = .ok [⟨.str [], some .heartBeat, some 0, some 0⟩]
    ∧ parse mockExt .threeOne (heartbeatBytes
        ++ [0, 0, 0x55, 0xAA, 0, 0, 0, 1, 0, 0, 0, 9, 0, 0, 1, 0])
      = .err .parsingIncomplete := by
  refine ⟨by decide, by decide⟩

/-- C9, amended: trailing bytes yield BufferNotCompletelyParsedError when
the frame matcher stopped with a recoverable error (so `many1` returned the
matched frames and a nonempty rest) and the per-frame processing of the
matched frames succeeded; an Incomplete abort instead surfaces as
ParsingIncomplete and a CRC failure as CRCError. -/
theorem c9_trailing_amended {P : Type} (ext : Ext P) (v : TuyaVersion)
    (buf rest : Bytes) (frames : List (Nat × Nat × Bytes))
    (msgs : List (Message P))
    (hm : many1Frames buf = .ok (rest, frames))
    (hrest : rest ≠ [])
    (hp : processFrames ext v buf frames = .ok msgs) :
    parse ext v buf = .err .bufferNotCompletelyParsedError :=
  parse_of_leftover ext v buf rest msgs
    (by rw [parseMessages_step _ _ _ _ _ hm, hp]) hrest

/-- C9 witness: a heartbeat frame with one junk byte appended. -/
theorem c9_trailing_witness :
    parse mockExt .threeOne (heartbeatBytes ++ [0])
      = .err .bufferNotCompletelyParsedError :=
  c9_trailing_amended mockExt .threeOne (heartbeatBytes ++ [0]) [0]
    [(0, 9, [0, 0, 0, 0, 0xB0, 0x51, 0xAB, 0x03])]
    [⟨.str [], some .heartBeat, some 0, some 0⟩]
    (by decide) (by decide) (by decide)

/-! ## C10 -/

/-- C10 evaluated on the code: the 24-byte frame with declared remaining
length 8 whose four inner bytes are zero passes the frame matcher, is taken
to carry a return code, and then `recv_data.len() - 4` underflows on the
empty remainder, so `split_at` panics: parse does not return normally. -/
theorem c10_panic_eval :
    parse mockExt .threeOne
      [0, 0, 0x55, 0xAA, 0, 0, 0, 0, 0, 0, 0, 9, 0, 0, 0, 8,
       0, 0, 0, 0, 0, 0, 0xAA, 0x55] = .panik := by decide

end Tuya

